import Mathlib

/-!
Verification of the neurodeploy infrastructure repository's core algorithms:
the topology composer of `main/main_stack.py` (resource deduplication,
duplicate-method detection, grant resolution, worker environment, queue
binding) and the object-ingestion pipeline of `src/s3_staging_trigger.py`
(metadata read, copy-then-delete relocation, merge-upsert of the index
record, per-record failure isolation).

Python dictionaries are embedded as association lists with the update
semantics of `dict.__setitem__` (overwrite in place, else append), the
AWS collaborators as the small state transformers they amount to for the
code under scrutiny (an S3 copy fails when the source is absent, an S3
delete of an absent key is benign, a PartiQL SELECT returns the list of
matching items, which may be empty, a DynamoDB `put_item` replaces the
item holding the same primary key, a CDK construct scope rejects a second
child with an already-used construct id).
-/

/-! ## Association-list dictionaries (Python `dict` / flat registries) -/

/-- Lookup in an association list; the first binding for the key wins. -/
def dget {κ α : Type} [DecidableEq κ] : List (κ × α) → κ → Option α
  | [], _ => none
  | p :: rest, k => if p.1 = k then some p.2 else dget rest k

/-- `d[k] = v` with Python semantics: overwrite the existing binding in
place, else append a new binding at the end. -/
def dinsert {κ α : Type} [DecidableEq κ] : List (κ × α) → κ → α → List (κ × α)
  | [], k, v => [(k, v)]
  | p :: rest, k, v => if p.1 = k then (k, v) :: rest else p :: dinsert rest k v

/-- Remove every binding of the key (S3 `delete`, idempotent on absence). -/
def ddel {κ α : Type} [DecidableEq κ] : List (κ × α) → κ → List (κ × α)
  | [], _ => []
  | p :: rest, k => if p.1 = k then ddel rest k else p :: ddel rest k

@[simp]
theorem dget_dinsert_self {κ α : Type} [DecidableEq κ] (m : List (κ × α)) (k : κ) (v : α) :
    dget (dinsert m k v) k = some v := by
  induction m with
  | nil => simp [dget, dinsert]
  | cons p rest ih =>
    by_cases h : p.1 = k
    · simp [dget, dinsert, h]
    · simp [dget, dinsert, h, ih]

@[simp]
theorem dget_dinsert_ne {κ α : Type} [DecidableEq κ] (m : List (κ × α)) (k k' : κ) (v : α)
    (h : k' ≠ k) : dget (dinsert m k v) k' = dget m k' := by
  induction m with
  | nil =>
    show dget [(k, v)] k' = none
    rw [dget, if_neg (Ne.symm h)]
    rfl
  | cons p rest ih =>
    by_cases hp : p.1 = k
    · have hpk' : p.1 ≠ k' := by rw [hp]; exact Ne.symm h
      show dget (if p.1 = k then (k, v) :: rest else p :: dinsert rest k v) k' = _
      rw [if_pos hp, dget, if_neg (Ne.symm h), dget, if_neg hpk']
    · show dget (if p.1 = k then (k, v) :: rest else p :: dinsert rest k v) k' = _
      rw [if_neg hp, dget, dget]
      by_cases hp' : p.1 = k'
      · rw [if_pos hp', if_pos hp']
      · rw [if_neg hp', if_neg hp', ih]

@[simp]
theorem dget_ddel_self {κ α : Type} [DecidableEq κ] (m : List (κ × α)) (k : κ) :
    dget (ddel m k) k = none := by
  induction m with
  | nil => rfl
  | cons p rest ih =>
    show dget (if p.1 = k then ddel rest k else p :: ddel rest k) k = none
    by_cases h : p.1 = k
    · rw [if_pos h]
      exact ih
    · rw [if_neg h, dget, if_neg h]
      exact ih

@[simp]
theorem dget_ddel_ne {κ α : Type} [DecidableEq κ] (m : List (κ × α)) (k k' : κ)
    (h : k' ≠ k) : dget (ddel m k) k' = dget m k' := by
  induction m with
  | nil => rfl
  | cons p rest ih =>
    show dget (if p.1 = k then ddel rest k else p :: ddel rest k) k' = _
    by_cases hp : p.1 = k
    · have hpk' : p.1 ≠ k' := by rw [hp]; exact Ne.symm h
      rw [if_pos hp, dget, if_neg hpk']
      exact ih
    · rw [if_neg hp, dget, dget]
      by_cases hp' : p.1 = k'
      · rw [if_pos hp', if_pos hp']
      · rw [if_neg hp', if_neg hp', ih]

theorem dget_mem {κ α : Type} [DecidableEq κ] {m : List (κ × α)} {k : κ} {v : α}
    (h : dget m k = some v) : (k, v) ∈ m := by
  induction m with
  | nil => simp [dget] at h
  | cons p rest ih =>
    by_cases hp : p.1 = k
    · rw [dget, if_pos hp] at h
      have hv : p.2 = v := by injection h
      have hkv : (k, v) = p := by
        cases p
        simp only at hp hv
        rw [hp, hv]
      rw [hkv]
      exact List.mem_cons_self _ _
    · rw [dget, if_neg hp] at h
      exact List.mem_cons_of_mem _ (ih h)

/-! ## Object Ingestion Pipeline — embedding of `src/s3_staging_trigger.py`

The storage of the two S3 buckets is one map from `(bucket, key)` to the
stored object (its user metadata travels with it on a copy); the Models
DynamoDB table is a list of records, each record a dictionary from
attribute name to value.  `datetime.utcnow()` is passed in as the `now`
argument.  Every Python exception the handler can see is a value of
`IngestErr`. -/

namespace Ingest

/-- A DynamoDB attribute value (only strings and booleans occur here). -/
inductive Val : Type
  | s (v : String)
  | b (v : Bool)
deriving DecidableEq, Repr

/-- One Models-table item: attribute name to value, Python-dict semantics. -/
abbrev Record : Type := List (String × Val)

/-- A stored S3 object; `metadata` is the user metadata dictionary
(`response["Metadata"]`), carried along by `copy`. -/
structure S3Object : Type where
  metadata : List (String × String)
deriving DecidableEq, Repr

/-- An S3 location, `s3_tuple(bucket, key)` in the source. -/
abbrev Loc : Type := String × String

/-- The state the pipeline reads and writes: both buckets' objects and the
Models table. -/
structure IngestState : Type where
  storage : List (Loc × S3Object)
  table : List Record
deriving DecidableEq, Repr

/-- The exceptions arising in `s3_staging_trigger.py`: the re-raised
`NoSuchKey` of `get_attributes`, a Python `KeyError` on a missing metadata
tag, and the `IndexError` of `get_model` on an empty result list. -/
inductive IngestErr : Type
  | noSuchKey
  | keyError (k : String)
  | indexError
deriving DecidableEq, Repr

/-- `get_model` (lines 24-27): the PartiQL SELECT returns the list of
items whose `pk` is `username|{username}` and whose `sk` is the model
name; this is that filter. -/
def modelMatches (tbl : List Record) (username model_name : String) : List Record :=
  tbl.filter fun r =>
    decide (dget r "pk" = some (Val.s ("username|" ++ username)) ∧
            dget r "sk" = some (Val.s model_name))

/-- `get_model` (lines 24-27).  `execute_statement` always answers a
SELECT with an `Items` list, possibly empty, so
`response.get("Items", [{}])[0]` indexes that list and raises `IndexError`
when no record matches. -/
def get_model (tbl : List Record) (username model_name : String) :
    Except IngestErr Record :=
  match modelMatches tbl username model_name with
  | [] => .error .indexError
  | r :: _ => .ok r

/-- `put_item`: DynamoDB replaces the item holding the same primary key
`(pk, sk)` and stores the new item otherwise. -/
def put_item (tbl : List Record) (item : Record) : List Record :=
  (tbl.filter fun r =>
    !(decide (dget r "pk" = dget item "pk") && decide (dget r "sk" = dget item "sk")))
  ++ [item]

/-- `upsert_ml_model_record` (lines 30-46): fetch the existing record,
`record.update({updated_at, bucket, key})`, set the flag named
`is_uploaded` when a model was uploaded and `is_preprocessing_uploaded`
otherwise, then `put_item` the merged record. -/
def upsert_ml_model_record (tbl : List Record) (now username model_name : String)
    (for_model : Bool) (bucket key : String) : Except IngestErr (List Record) :=
  match get_model tbl username model_name with
  | .error e => .error e
  | .ok record =>
    let r1 := dinsert record "updated_at" (Val.s now)
    let r2 := dinsert r1 "bucket" (Val.s bucket)
    let r3 := dinsert r2 "key" (Val.s key)
    let r4 := dinsert r3 (if for_model then "is_uploaded" else "is_preprocessing_uploaded")
                (Val.b true)
    .ok (put_item tbl r4)

/-- `get_attributes` (lines 49-55): `get_object` and return the user
metadata; a missing object raises (the code re-raises `NoSuchKey` as a
generic exception). -/
def get_attributes (storage : List (Loc × S3Object)) (bucket_name object_name : String) :
    Except IngestErr (List (String × String)) :=
  match dget storage (bucket_name, object_name) with
  | some obj => .ok obj.metadata
  | none => .error .noSuchKey

/-- Python `d[k]` on the metadata dictionary: `KeyError` when absent. -/
def metaGet (meta : List (String × String)) (k : String) : Except IngestErr String :=
  match dget meta k with
  | some v => .ok v
  | none => .error (.keyError k)

/-- `move_object` (lines 71-78): copy the object to the destination
location first (S3 `copy` fails when the source vanished), then delete
the source; an S3 delete of an absent key is benign. -/
def move_object (storage : List (Loc × S3Object)) (from_ to_ : Loc) :
    Except IngestErr (List (Loc × S3Object)) :=
  match dget storage from_ with
  | none => .error .noSuchKey
  | some obj => .ok (ddel (dinsert storage to_ obj) from_)

/-- One field per s3-event-record access that `main` performs:
`event["awsRegion"]`, `event["s3"]["bucket"]["name"]`,
`event["s3"]["object"]["key"]`. -/
structure Event : Type where
  awsRegion : String
  bucket : String
  key : String
deriving DecidableEq, Repr

/-- `main` (lines 81-108).  Reads the metadata, derives the destination
key from the `mop` tag (`model` versus anything else), moves the object
into `{pfx}-models-{region}`, then upserts the index record.  State
written before a failure stays written; the raised exception is the
second component. -/
def main (pfx now : String) (ev : Event) (st : IngestState) :
    IngestState × Option IngestErr :=
  let modelsBucket := pfx ++ "-models-" ++ ev.awsRegion
  match get_attributes st.storage ev.bucket ev.key with
  | .error e => (st, some e)
  | .ok meta =>
    match metaGet meta "mop" with
    | .error e => (st, some e)
    | .ok mop =>
      match metaGet meta "username" with
      | .error e => (st, some e)
      | .ok u =>
        match metaGet meta "model_name" with
        | .error e => (st, some e)
        | .ok m =>
          let s3_key := if mop = "model" then u ++ "/" ++ m
                        else u ++ "/" ++ m ++ "_preprocessing"
          match move_object st.storage (ev.bucket, ev.key) (modelsBucket, s3_key) with
          | .error e => (st, some e)
          | .ok storage2 =>
            let st1 : IngestState := { st with storage := storage2 }
            match upsert_ml_model_record st1.table now u m (decide (mop = "model"))
                    ev.bucket s3_key with
            | .error e => (st1, some e)
            | .ok tbl => ({ st1 with table := tbl }, none)

/-- The body of the per-record `try`/`except` of `handler` (lines 61-68):
run `main` and turn a raised exception into one log entry carrying the
offending record payload. -/
def processRecord (pfx now : String) (ev : Event) (st : IngestState) :
    IngestState × List (Event × IngestErr) :=
  match main pfx now ev st with
  | (st', some e) => (st', [(ev, e)])
  | (st', none) => (st', [])

/-- `handler` (lines 58-68): the batch loop; each record runs inside its
own failure boundary and the loop always reaches the end of the batch. -/
def handler (pfx now : String) (events : List Event) (st : IngestState) :
    IngestState × List (Event × IngestErr) :=
  match events with
  | [] => (st, [])
  | ev :: rest =>
    let r := processRecord pfx now ev st
    let r2 := handler pfx now rest r.1
    (r2.1, r.2 ++ r2.2)

end Ingest

/-! ## Topology Composer — embedding of `main/main_stack.py`

CDK constructs are numbered by one fresh counter `nextId`.  A scope
rejects a second child with an already-used construct id: the stack scope
holds the lambda functions (construct id = handler file name) and the
queues (construct id = resource name), so both share `stackIds`; each API
resource scope holds its methods (construct id = HTTP verb), tracked in
`methods`.  `resources` is the flat registry `self.apigw_resources`,
keyed by `(resource_name, proxy)`.  Grant calls are recorded as
`Grant` values; the IAM meaning of each grant kind is `allows`. -/

namespace Topo

/-- The `Permission` enum (lines 30-33). -/
inductive Permission : Type
  | READ
  | WRITE
  | READ_WRITE
deriving DecidableEq, Repr

/-- One grant call of `create_lambda` (lines 118-134), of the queue
wiring (lines 190-191, 446-447) or of the secret wiring (line 198). -/
inductive GrantKind : Type
  | readData        -- `table.grant_read_data`
  | writeData       -- `table.grant_write_data`
  | fullAccess      -- `table.grant_full_access`
  | bucketRead      -- `bucket.grant_read`
  | bucketWrite     -- `bucket.grant_write`
  | bucketReadWrite -- `bucket.grant_read_write`
  | queueSend       -- `queue.grant_send_messages`
  | queueConsume    -- `queue.grant_consume_messages`
  | secretRead      -- `secret.grant_read`
deriving DecidableEq, Repr

/-- The operations a worker may need on a store; the IAM meaning of a
grant kind is which of these it allows. -/
inductive Op : Type
  | read
  | write
  | send
  | consume
deriving DecidableEq, Repr

/-- Which operations a single grant statement allows: the data-store
full-access grant and the bucket read-write grant are combined
statements covering both read and write. -/
def allows : GrantKind → Op → Bool
  | .readData, .read => true
  | .writeData, .write => true
  | .fullAccess, .read => true
  | .fullAccess, .write => true
  | .bucketRead, .read => true
  | .bucketWrite, .write => true
  | .bucketReadWrite, .read => true
  | .bucketReadWrite, .write => true
  | .queueSend, .send => true
  | .queueConsume, .consume => true
  | .secretRead, .read => true
  | _, _ => false

/-- Some operation of the list of statements allows the operation. -/
def allowsAny (gs : List GrantKind) (o : Op) : Bool :=
  gs.any fun g => allows g o

/-- The statements emitted for one DynamoDB table at one access level:
the `if`/`elif`/`else` chain of lines 119-125.  One grant call, hence one
statement, per (store, level). -/
def resolveTable : Permission → List GrantKind
  | .READ => [.readData]
  | .WRITE => [.writeData]
  | .READ_WRITE => [.fullAccess]

/-- The statements emitted for one S3 bucket at one access level
(lines 128-134). -/
def resolveBucket : Permission → List GrantKind
  | .READ => [.bucketRead]
  | .WRITE => [.bucketWrite]
  | .READ_WRITE => [.bucketReadWrite]

/-- A DynamoDB table reference: environment key `table.table_name`,
environment value `table.table_arn`. -/
structure TableRef : Type where
  name : String
  arn : String
deriving DecidableEq, Repr

/-- An S3 bucket reference. -/
structure BucketRef : Type where
  name : String
deriving DecidableEq, Repr

/-- What a recorded grant statement is attached to. -/
inductive GrantTarget : Type
  | table (name arn : String)
  | bucket (name : String)
  | queue (q : Nat)
  | secret (name : String)
deriving DecidableEq, Repr

/-- One recorded grant: the worker (by construct number), the store and
the statement kind. -/
structure Grant : Type where
  principal : Nat
  target : GrantTarget
  kind : GrantKind
deriving DecidableEq, Repr

/-- The queue properties fixed by `add` (lines 170-182) and mirrored at
lines 465-473: FIFO, no content-based deduplication, deduplication scoped
per message group, 15-minute visibility window, 12-hour retention. -/
structure QueueProps : Type where
  fifo : Bool
  contentBasedDeduplication : Bool
  dedupScopePerMessageGroup : Bool
  visibilityTimeoutMinutes : Nat
  retentionHours : Nat
deriving DecidableEq, Repr

/-- The properties every queue of this stack is created with. -/
def fifoQueueProps : QueueProps :=
  { fifo := true
    contentBasedDeduplication := false
    dedupScopePerMessageGroup := true
    visibilityTimeoutMinutes := 15
    retentionHours := 12 }

/-- The whole state the composer mutates while `MainStack` is built. -/
structure TopoState : Type where
  nextId : Nat
  resources : List ((String × Bool) × Nat)
  methods : List (Nat × String)
  stackIds : List String
  lambdas : List (Nat × List (String × String))
  queues : List (Nat × QueueProps)
  grants : List Grant
  eventSources : List (Nat × Nat × Nat)
deriving DecidableEq, Repr

/-- The state of a freshly constructed stack. -/
def initState : TopoState :=
  { nextId := 0, resources := [], methods := [], stackIds := [],
    lambdas := [], queues := [], grants := [], eventSources := [] }

/-- Composition-time failure: CDK rejects a duplicate construct id in a
scope.  This is the `ConfigurationError` of the specification's
taxonomy. -/
inductive ConfigurationError : Type
  | duplicateConstruct (id : String)
  | duplicateMethod (node : Nat) (method : String)
deriving DecidableEq, Repr

/-- Deployment context: `self.region_name` and `self.prefix`. -/
structure StackCfg : Type where
  regionName : String
  pfx : String
deriving DecidableEq, Repr

/-- `queue.queue_url` of the queue construct numbered `q`. -/
def queueUrl (q : Nat) : String :=
  "https://sqs/" ++ toString q

/-- The resource-placement prefix of `add` (lines 151-166): reuse the
node registered under `(resource_name, proxy)`; otherwise create it — a
plain resource directly, a proxy resource beneath the (reused or newly
created and registered) plain resource of the same name — and register
it.  Returns the node. -/
def place (st : TopoState) (name : String) (proxy : Bool) : TopoState × Nat :=
  match dget st.resources (name, proxy) with
  | some n => (st, n)
  | none =>
    if proxy then
      match dget st.resources (name, false) with
      | some _ =>
        let child := st.nextId
        ({ st with nextId := st.nextId + 1,
                   resources := dinsert st.resources (name, true) child }, child)
      | none =>
        let lit := st.nextId
        let child := st.nextId + 1
        ({ st with nextId := st.nextId + 2,
                   resources := dinsert (dinsert st.resources (name, false) lit)
                                  (name, true) child }, child)
    else
      let lit := st.nextId
      ({ st with nextId := st.nextId + 1,
                 resources := dinsert st.resources (name, false) lit }, lit)

/-- The environment dictionary of `create_lambda` (lines 98-103): one
entry `table_name → table_arn` per granted table — buckets contribute no
entry — then `region_name`, `prefix`, and the queue URL when a queue is
handed in. -/
def buildEnv (cfg : StackCfg) (tables : List (TableRef × Permission))
    (queue : Option Nat) : List (String × String) :=
  let e := tables.foldl (fun e tp => dinsert e tp.1.name tp.1.arn) []
  let e := dinsert e "region_name" cfg.regionName
  let e := dinsert e "prefix" cfg.pfx
  match queue with
  | some q => dinsert e "queue" (queueUrl q)
  | none => e

/-- The grant statements `create_lambda` attaches (lines 118-134): the
resolved statements of every table, then of every bucket. -/
def lambdaGrants (fn : Nat) (tables : List (TableRef × Permission))
    (buckets : List (BucketRef × Permission)) : List Grant :=
  (tables.foldr (fun tp acc =>
      ((resolveTable tp.2).map fun k => Grant.mk fn (.table tp.1.name tp.1.arn) k) ++ acc)
    [])
  ++ (buckets.foldr (fun bp acc =>
      ((resolveBucket bp.2).map fun k => Grant.mk fn (.bucket bp.1.name) k) ++ acc)
    [])

/-- `create_lambda` (lines 90-136): build the environment, create the
function construct in the stack scope (CDK rejects a reused id), record
it, attach the table and bucket grants.  Returns the function's
number. -/
def create_lambda (cfg : StackCfg) (st : TopoState) (id : String)
    (tables : List (TableRef × Permission)) (buckets : List (BucketRef × Permission))
    (queue : Option Nat) : Except ConfigurationError (TopoState × Nat) :=
  let env := buildEnv cfg tables queue
  if id ∈ st.stackIds then .error (.duplicateConstruct id)
  else
    let fn := st.nextId
    .ok ({ st with
            nextId := st.nextId + 1,
            stackIds := id :: st.stackIds,
            lambdas := (fn, env) :: st.lambdas,
            grants := lambdaGrants fn tables buckets ++ st.grants }, fn)

/-- What `add` returns, together with the path node it bound: the Python
`LambdaQueueTuple` plus the node recorded in the registry. -/
structure AddResult : Type where
  node : Nat
  fn : Nat
  queue : Option Nat
deriving DecidableEq, Repr

/-- The grant calls of the secrets loop (lines 197-199) of `add`. -/
def secretGrants (fn : Nat) (secrets : List (String × String)) : List Grant :=
  secrets.map fun pr => Grant.mk fn (.secret pr.2) .secretRead

/-- The `add_environment` calls of the secrets loop (line 199): update
the one lambda's environment dictionary. -/
def addSecretEnv (lambdas : List (Nat × List (String × String))) (fn : Nat)
    (secrets : List (String × String)) : List (Nat × List (String × String)) :=
  lambdas.map fun p =>
    if p.1 = fn then (p.1, secrets.foldl (fun e pr => dinsert e pr.1 pr.2) p.2) else p

/-- The tail of `add` after queue creation (lines 183-201):
`create_lambda`, grant the producer send rights on the queue when one
was created, add the HTTP method to the node (CDK rejects a second
method construct of the same verb on one resource), wire the secrets. -/
def addRouteRest (cfg : StackCfg) (st2 : TopoState) (node : Nat)
    (httpMethod lid : String) (tables : List (TableRef × Permission))
    (buckets : List (BucketRef × Permission)) (secrets : List (String × String))
    (qopt : Option Nat) : Except ConfigurationError (TopoState × AddResult) :=
  match create_lambda cfg st2 lid tables buckets qopt with
  | .error e => .error e
  | .ok (st3, fn) =>
    let st4 :=
      match qopt with
      | some q => { st3 with grants := Grant.mk fn (.queue q) .queueSend :: st3.grants }
      | none => st3
    if (node, httpMethod) ∈ st4.methods then
      .error (.duplicateMethod node httpMethod)
    else
      let st5 := { st4 with methods := (node, httpMethod) :: st4.methods }
      let st6 := { st5 with grants := secretGrants fn secrets ++ st5.grants,
                            lambdas := addSecretEnv st5.lambdas fn secrets }
      .ok (st6, AddResult.mk node fn qopt)

/-- `add` (lines 138-201): place (or reuse) the resource node; create
the FIFO queue when asked — its construct id is the resource name, in
the stack scope, so a reused id fails — then `addRouteRest` under the
lambda id `{resource_name}_{http_method}` unless a file name overwrite
is given. -/
def addRoute (cfg : StackCfg) (st0 : TopoState) (httpMethod resourceName : String)
    (proxy : Bool) (filenameOverwrite : Option String)
    (tables : List (TableRef × Permission)) (buckets : List (BucketRef × Permission))
    (secrets : List (String × String)) (createQueue : Bool) :
    Except ConfigurationError (TopoState × AddResult) :=
  let pr := place st0 resourceName proxy
  let st1 := pr.1
  let node := pr.2
  let lid := filenameOverwrite.getD (resourceName ++ "_" ++ httpMethod)
  match createQueue with
  | true =>
    if resourceName ∈ st1.stackIds then .error (.duplicateConstruct resourceName)
    else
      addRouteRest cfg
        { st1 with nextId := st1.nextId + 1,
                   stackIds := resourceName :: st1.stackIds,
                   queues := (st1.nextId, fifoQueueProps) :: st1.queues }
        node httpMethod lid tables buckets secrets (some st1.nextId)
  | false => addRouteRest cfg st1 node httpMethod lid tables buckets secrets none

/-- The consumer wiring of `create_new_user_lambda` (lines 429-450):
create the consumer function in the stack scope, grant it consume and
send rights on the queue, and register it as an SQS event source with
the given batch size. -/
def attachConsumer (st : TopoState) (id : String) (q : Nat) (batchSize : Nat)
    (env : List (String × String)) : Except ConfigurationError (TopoState × Nat) :=
  if id ∈ st.stackIds then .error (.duplicateConstruct id)
  else
    let fn := st.nextId
    .ok ({ st with
            nextId := st.nextId + 1,
            stackIds := id :: st.stackIds,
            lambdas := (fn, env) :: st.lambdas,
            grants := Grant.mk fn (.queue q) .queueConsume ::
                      Grant.mk fn (.queue q) .queueSend :: st.grants,
            eventSources := (fn, q, batchSize) :: st.eventSources }, fn)

/-- The grants recorded on one queue. -/
def grantsOn (st : TopoState) (q : Nat) : List Grant :=
  st.grants.filter fun g => decide (g.target = .queue q)

end Topo

/-! ## C7 — grant resolution -/

/-- C7, counterexample.  For a data store at level READ_WRITE the code
emits the single combined full-access statement
(`table.grant_full_access`, line 125), not the pair of the finer read
and write statements — although the finer primitives exist for this
store type (they are exactly what READ and WRITE emit, lines 121-123).
This refutes the claim's "READ_WRITE yields both … never a single
combined full-access statement unless the store type has no
finer-grained primitive". -/
theorem resolve_read_write_single_full_access_statement :
    Topo.resolveTable Topo.Permission.READ_WRITE ≠
      Topo.resolveTable Topo.Permission.READ ++ Topo.resolveTable Topo.Permission.WRITE ∧
    Topo.resolveTable Topo.Permission.READ_WRITE = [Topo.GrantKind.fullAccess] ∧
    Topo.resolveTable Topo.Permission.READ = [Topo.GrantKind.readData] ∧
    Topo.resolveTable Topo.Permission.WRITE = [Topo.GrantKind.writeData] ∧
    Topo.allows Topo.GrantKind.fullAccess Topo.Op.read = true ∧
    Topo.allows Topo.GrantKind.fullAccess Topo.Op.write = true ∧
    Topo.GrantKind.fullAccess ∉ Topo.resolveTable Topo.Permission.READ ∧
    Topo.GrantKind.fullAccess ∉ Topo.resolveTable Topo.Permission.WRITE := by
  decide

/-- C7, amended.  Grant resolution is a pure, total, deterministic
mapping; READ yields a statement allowing exactly read, WRITE a
statement allowing exactly write; READ_WRITE yields one single combined
statement (full access for data stores, read-write for object stores)
whose allowed operations are exactly the union — hence a superset — of
those of READ and of WRITE. -/
theorem resolve_read_write_superset :
    (∀ o : Topo.Op,
      Topo.allowsAny (Topo.resolveTable Topo.Permission.READ) o = (o == Topo.Op.read) ∧
      Topo.allowsAny (Topo.resolveTable Topo.Permission.WRITE) o = (o == Topo.Op.write) ∧
      Topo.allowsAny (Topo.resolveTable Topo.Permission.READ_WRITE) o =
        (Topo.allowsAny (Topo.resolveTable Topo.Permission.READ) o ||
         Topo.allowsAny (Topo.resolveTable Topo.Permission.WRITE) o) ∧
      Topo.allowsAny (Topo.resolveBucket Topo.Permission.READ) o = (o == Topo.Op.read) ∧
      Topo.allowsAny (Topo.resolveBucket Topo.Permission.WRITE) o = (o == Topo.Op.write) ∧
      Topo.allowsAny (Topo.resolveBucket Topo.Permission.READ_WRITE) o =
        (Topo.allowsAny (Topo.resolveBucket Topo.Permission.READ) o ||
         Topo.allowsAny (Topo.resolveBucket Topo.Permission.WRITE) o)) ∧
    (∀ p : Topo.Permission,
      (Topo.resolveTable p).length = 1 ∧ (Topo.resolveBucket p).length = 1) := by
  constructor
  · intro o
    cases o <;> decide
  · intro p
    cases p <;> decide

/-! ## C5 — per-record failure boundary of the ingestion batch -/

/-- C5.  Each record of a batch is processed inside its own failure
boundary: the handler of a concatenated batch is the handler of the
first part followed by the handler of the second part started from the
first part's final state, with the failure logs concatenated — so a
failing record never aborts its siblings — and the handler of one
record advances the state exactly as `main` does, logging the offending
record's payload together with its error when `main` raises and logging
nothing otherwise.  The handler returns in every case: no exception
propagates past the batch. -/
theorem handler_batch_isolation :
    (∀ (pfx now : String) (xs ys : List Ingest.Event) (st : Ingest.IngestState),
      Ingest.handler pfx now (xs ++ ys) st =
        ((Ingest.handler pfx now ys (Ingest.handler pfx now xs st).1).1,
         (Ingest.handler pfx now xs st).2 ++
           (Ingest.handler pfx now ys (Ingest.handler pfx now xs st).1).2)) ∧
    (∀ (pfx now : String) (ev : Ingest.Event) (st : Ingest.IngestState),
      Ingest.handler pfx now [ev] st =
        ((Ingest.main pfx now ev st).1,
         match (Ingest.main pfx now ev st).2 with
         | some e => [(ev, e)]
         | none => [])) := by
  constructor
  · intro pfx now xs ys st
    induction xs generalizing st with
    | nil => simp [Ingest.handler]
    | cons ev rest ih =>
      simp only [List.cons_append, Ingest.handler, List.append_eq]
      rw [ih]
      simp [List.append_assoc]
  · intro pfx now ev st
    simp only [Ingest.handler, Ingest.processRecord]
    cases h : Ingest.main pfx now ev st with
    | mk st' e =>
      cases e <;> simp

/-! ## C4 — destination key and copy-then-delete relocation -/

/-- C4.  The destination of an ingestion event is
`{pfx}-models-{region}` with key `{user}/{modelName}` for kind `model`
and `{user}/{modelName}_preprocessing` for kind `preprocessing`
(`s3_metadata["mop"]`, lines 93-96); `move_object` copies the object to
the destination first and deletes the source second (lines 71-78), so
after the run the source key is absent and the destination key holds the
object — whether or not the subsequent index upsert succeeds. -/
theorem ingestion_relocation (pfx now u m mop : String) (ev : Ingest.Event)
    (st : Ingest.IngestState) (obj : Ingest.S3Object)
    (hobj : dget st.storage (ev.bucket, ev.key) = some obj)
    (hmop : dget obj.metadata "mop" = some mop)
    (hu : dget obj.metadata "username" = some u)
    (hm : dget obj.metadata "model_name" = some m) :
    dget (Ingest.main pfx now ev st).1.storage (ev.bucket, ev.key) = none ∧
    (mop = "model" →
      (ev.bucket, ev.key) ≠ (pfx ++ "-models-" ++ ev.awsRegion, u ++ "/" ++ m) →
      dget (Ingest.main pfx now ev st).1.storage
        (pfx ++ "-models-" ++ ev.awsRegion, u ++ "/" ++ m) = some obj) ∧
    (mop = "preprocessing" →
      (ev.bucket, ev.key) ≠
        (pfx ++ "-models-" ++ ev.awsRegion, u ++ "/" ++ m ++ "_preprocessing") →
      dget (Ingest.main pfx now ev st).1.storage
        (pfx ++ "-models-" ++ ev.awsRegion, u ++ "/" ++ m ++ "_preprocessing") = some obj) := by
  simp only [Ingest.main, Ingest.get_attributes, Ingest.metaGet, Ingest.move_object,
    hobj, hmop, hu, hm]
  cases hup : Ingest.upsert_ml_model_record st.table now u m (decide (mop = "model"))
      ev.bucket (if mop = "model" then u ++ "/" ++ m else u ++ "/" ++ m ++ "_preprocessing") with
  | error e =>
    refine ⟨by simp [hup], ?_, ?_⟩
    · intro hmodel hne
      subst hmodel
      simp [hup, dget_ddel_ne _ _ _ (Ne.symm hne)]
    · intro hprep hne
      subst hprep
      simp [hup, dget_ddel_ne _ _ _ (Ne.symm hne)]
  | ok tbl =>
    refine ⟨by simp [hup], ?_, ?_⟩
    · intro hmodel hne
      subst hmodel
      simp [hup, dget_ddel_ne _ _ _ (Ne.symm hne)]
    · intro hprep hne
      subst hprep
      simp [hup, dget_ddel_ne _ _ _ (Ne.symm hne)]

/-- C4, witness. -/
theorem ingestion_relocation_witness :
    dget (Ingest.main "nd" "T1"
      (Ingest.Event.mk "us-east-1" "nd-staging-us-east-1" "staging/obj123")
      (Ingest.IngestState.mk
        [(("nd-staging-us-east-1", "staging/obj123"),
          Ingest.S3Object.mk [("mop", "model"), ("username", "alice"), ("model_name", "m1")])]
        [])).1.storage ("nd-staging-us-east-1", "staging/obj123") = none ∧
    dget (Ingest.main "nd" "T1"
      (Ingest.Event.mk "us-east-1" "nd-staging-us-east-1" "staging/obj123")
      (Ingest.IngestState.mk
        [(("nd-staging-us-east-1", "staging/obj123"),
          Ingest.S3Object.mk [("mop", "model"), ("username", "alice"), ("model_name", "m1")])]
        [])).1.storage ("nd-models-us-east-1", "alice/m1") =
      some (Ingest.S3Object.mk [("mop", "model"), ("username", "alice"), ("model_name", "m1")]) := by
  have h := ingestion_relocation "nd" "T1" "alice" "m1" "model"
    (Ingest.Event.mk "us-east-1" "nd-staging-us-east-1" "staging/obj123")
    (Ingest.IngestState.mk
      [(("nd-staging-us-east-1", "staging/obj123"),
        Ingest.S3Object.mk [("mop", "model"), ("username", "alice"), ("model_name", "m1")])]
      [])
    (Ingest.S3Object.mk [("mop", "model"), ("username", "alice"), ("model_name", "m1")])
    (by decide) (by decide) (by decide) (by decide)
  exact ⟨h.1, h.2.1 rfl (by decide)⟩

/-! ## C10 — first-time upload raises IndexError, no record written -/

/-- C10.  When no index record exists for `(user, modelName)`, the
PartiQL lookup of `get_model` answers an empty `Items` list and
`response.get("Items", [{}])[0]` raises an `IndexError` (line 27), so
`upsert_ml_model_record` writes nothing: `main` ends with the error, the
table is unchanged, and the batch handler logs the event as a per-record
failure. -/
theorem first_upload_index_error (pfx now u m mop : String) (ev : Ingest.Event)
    (st : Ingest.IngestState) (obj : Ingest.S3Object)
    (hobj : dget st.storage (ev.bucket, ev.key) = some obj)
    (hmop : dget obj.metadata "mop" = some mop)
    (hu : dget obj.metadata "username" = some u)
    (hm : dget obj.metadata "model_name" = some m)
    (hnone : Ingest.modelMatches st.table u m = []) :
    (Ingest.main pfx now ev st).2 = some Ingest.IngestErr.indexError ∧
    (Ingest.main pfx now ev st).1.table = st.table ∧
    Ingest.handler pfx now [ev] st =
      ((Ingest.main pfx now ev st).1, [(ev, Ingest.IngestErr.indexError)]) := by
  have hup : Ingest.upsert_ml_model_record st.table now u m (decide (mop = "model"))
      ev.bucket (if mop = "model" then u ++ "/" ++ m else u ++ "/" ++ m ++ "_preprocessing")
      = .error .indexError := by
    simp [Ingest.upsert_ml_model_record, Ingest.get_model, hnone]
  have hmain : (Ingest.main pfx now ev st).2 = some Ingest.IngestErr.indexError ∧
      (Ingest.main pfx now ev st).1.table = st.table := by
    simp [Ingest.main, Ingest.get_attributes, Ingest.metaGet, Ingest.move_object,
      hobj, hmop, hu, hm, hup]
  refine ⟨hmain.1, hmain.2, ?_⟩
  simp only [Ingest.handler, Ingest.processRecord]
  cases h : Ingest.main pfx now ev st with
  | mk st' e =>
    have : e = some Ingest.IngestErr.indexError := by
      have := hmain.1
      rw [h] at this
      exact this
    subst this
    simp

/-- C10, witness. -/
theorem first_upload_index_error_witness :
    (Ingest.main "nd" "T1"
      (Ingest.Event.mk "us-east-1" "nd-staging-us-east-1" "staging/obj123")
      (Ingest.IngestState.mk
        [(("nd-staging-us-east-1", "staging/obj123"),
          Ingest.S3Object.mk [("mop", "model"), ("username", "alice"), ("model_name", "m1")])]
        [])).2 = some Ingest.IngestErr.indexError ∧
    (Ingest.main "nd" "T1"
      (Ingest.Event.mk "us-east-1" "nd-staging-us-east-1" "staging/obj123")
      (Ingest.IngestState.mk
        [(("nd-staging-us-east-1", "staging/obj123"),
          Ingest.S3Object.mk [("mop", "model"), ("username", "alice"), ("model_name", "m1")])]
        [])).1.table = [] :=
  ⟨(first_upload_index_error "nd" "T1" "alice" "m1" "model" _ _
      (Ingest.S3Object.mk [("mop", "model"), ("username", "alice"), ("model_name", "m1")])
      (by decide) (by decide) (by decide) (by decide) (by decide)).1,
   (first_upload_index_error "nd" "T1" "alice" "m1" "model" _ _
      (Ingest.S3Object.mk [("mop", "model"), ("username", "alice"), ("model_name", "m1")])
      (by decide) (by decide) (by decide) (by decide) (by decide)).2.1⟩

/-! ## C6 — replay idempotence -/

/-- C6.  Replaying one ingestion event leaves the state where one run
put it: a run that fails before the move writes nothing and the replay
takes the same failing branch, and a run that reaches `move_object`
deletes the source key, so the replay stops at `get_attributes` with
`NoSuchKey` and writes nothing — the replay never changes storage or
table, even with a different wall-clock timestamp. -/
theorem ingestion_replay_idempotent (pfx n1 n2 : String) (ev : Ingest.Event)
    (st : Ingest.IngestState) :
    (Ingest.main pfx n2 ev (Ingest.main pfx n1 ev st).1).1 = (Ingest.main pfx n1 ev st).1 := by
  cases h1 : dget st.storage (ev.bucket, ev.key) with
  | none =>
    simp [Ingest.main, Ingest.get_attributes, h1]
  | some obj =>
    cases h2 : dget obj.metadata "mop" with
    | none =>
      simp [Ingest.main, Ingest.get_attributes, Ingest.metaGet, h1, h2]
    | some mop =>
      cases h3 : dget obj.metadata "username" with
      | none =>
        simp [Ingest.main, Ingest.get_attributes, Ingest.metaGet, h1, h2, h3]
      | some u =>
        cases h4 : dget obj.metadata "model_name" with
        | none =>
          simp [Ingest.main, Ingest.get_attributes, Ingest.metaGet, h1, h2, h3, h4]
        | some m =>
          cases hup : Ingest.upsert_ml_model_record st.table n1 u m (decide (mop = "model"))
              ev.bucket (if mop = "model" then u ++ "/" ++ m
                         else u ++ "/" ++ m ++ "_preprocessing") with
          | error e =>
            simp [Ingest.main, Ingest.get_attributes, Ingest.metaGet, Ingest.move_object,
              h1, h2, h3, h4, hup]
          | ok tbl =>
            simp [Ingest.main, Ingest.get_attributes, Ingest.metaGet, Ingest.move_object,
              h1, h2, h3, h4, hup]

/-! ## C3 — merge-upsert of the index record -/

/-- C3.  Evaluation of the pipeline at an ingestion event of kind
`model` for `(alice, m1)` whose index record previously had
`is_preprocessing_uploaded = true`.  The merge behaves as claimed for
the timestamp, the key and both flags — the untouched
`is_preprocessing_uploaded` keeps its prior value and `is_uploaded` is
set — but the `bucket` field of the written record is the SOURCE
(staging) bucket (`upsert_ml_model_record(..., bucket=s3_bucket, ...)`,
line 106), not the destination bucket, although the object now lives
only in the destination bucket: the stored `(bucket, key)` pair points
at a location that holds no object. -/
theorem index_record_source_bucket_bug :
    (Ingest.main "nd" "T1"
      (Ingest.Event.mk "us-east-1" "nd-staging-us-east-1" "staging/obj123")
      (Ingest.IngestState.mk
        [(("nd-staging-us-east-1", "staging/obj123"),
          Ingest.S3Object.mk [("mop", "model"), ("username", "alice"), ("model_name", "m1")])]
        [[("pk", Ingest.Val.s "username|alice"), ("sk", Ingest.Val.s "m1"),
          ("is_preprocessing_uploaded", Ingest.Val.b true)]])).2 = none ∧
    (∀ r ∈ (Ingest.main "nd" "T1"
      (Ingest.Event.mk "us-east-1" "nd-staging-us-east-1" "staging/obj123")
      (Ingest.IngestState.mk
        [(("nd-staging-us-east-1", "staging/obj123"),
          Ingest.S3Object.mk [("mop", "model"), ("username", "alice"), ("model_name", "m1")])]
        [[("pk", Ingest.Val.s "username|alice"), ("sk", Ingest.Val.s "m1"),
          ("is_preprocessing_uploaded", Ingest.Val.b true)]])).1.table,
      dget r "updated_at" = some (Ingest.Val.s "T1") ∧
      dget r "key" = some (Ingest.Val.s "alice/m1") ∧
      dget r "is_uploaded" = some (Ingest.Val.b true) ∧
      dget r "is_preprocessing_uploaded" = some (Ingest.Val.b true) ∧
      dget r "bucket" = some (Ingest.Val.s "nd-staging-us-east-1")) ∧
    (Ingest.main "nd" "T1"
      (Ingest.Event.mk "us-east-1" "nd-staging-us-east-1" "staging/obj123")
      (Ingest.IngestState.mk
        [(("nd-staging-us-east-1", "staging/obj123"),
          Ingest.S3Object.mk [("mop", "model"), ("username", "alice"), ("model_name", "m1")])]
        [[("pk", Ingest.Val.s "username|alice"), ("sk", Ingest.Val.s "m1"),
          ("is_preprocessing_uploaded", Ingest.Val.b true)]])).1.table ≠ [] ∧
    dget (Ingest.main "nd" "T1"
      (Ingest.Event.mk "us-east-1" "nd-staging-us-east-1" "staging/obj123")
      (Ingest.IngestState.mk
        [(("nd-staging-us-east-1", "staging/obj123"),
          Ingest.S3Object.mk [("mop", "model"), ("username", "alice"), ("model_name", "m1")])]
        [[("pk", Ingest.Val.s "username|alice"), ("sk", Ingest.Val.s "m1"),
          ("is_preprocessing_uploaded", Ingest.Val.b true)]])).1.storage
      ("nd-staging-us-east-1", "alice/m1") = none ∧
    dget (Ingest.main "nd" "T1"
      (Ingest.Event.mk "us-east-1" "nd-staging-us-east-1" "staging/obj123")
      (Ingest.IngestState.mk
        [(("nd-staging-us-east-1", "staging/obj123"),
          Ingest.S3Object.mk [("mop", "model"), ("username", "alice"), ("model_name", "m1")])]
        [[("pk", Ingest.Val.s "username|alice"), ("sk", Ingest.Val.s "m1"),
          ("is_preprocessing_uploaded", Ingest.Val.b true)]])).1.storage
      ("nd-models-us-east-1", "alice/m1") =
      some (Ingest.S3Object.mk [("mop", "model"), ("username", "alice"), ("model_name", "m1")]) ∧
    ("nd-staging-us-east-1" : String) ≠ "nd-models-us-east-1" := by
  decide

/-! ## Path-tree placement lemmas -/

/-- A found key makes `place` a pure lookup: no state change. -/
theorem place_found {st : Topo.TopoState} {name : String} {proxy : Bool} {n : Nat}
    (h : dget st.resources (name, proxy) = some n) :
    Topo.place st name proxy = (st, n) := by
  simp [Topo.place, h]

/-- After `place`, the registry binds the key to the returned node. -/
theorem place_lookup (st : Topo.TopoState) (name : String) (proxy : Bool) :
    dget (Topo.place st name proxy).1.resources (name, proxy) =
      some (Topo.place st name proxy).2 := by
  cases proxy with
  | false =>
    cases h : dget st.resources (name, false) with
    | some n => simp [Topo.place, h]
    | none => simp [Topo.place, h]
  | true =>
    cases h : dget st.resources (name, true) with
    | some n => simp [Topo.place, h]
    | none =>
      cases h2 : dget st.resources (name, false) with
      | some p => simp [Topo.place, h, h2]
      | none => simp [Topo.place, h, h2]

/-- `place` touches only `nextId` and `resources`. -/
theorem place_state (st : Topo.TopoState) (name : String) (proxy : Bool) :
    (Topo.place st name proxy).1.methods = st.methods ∧
    (Topo.place st name proxy).1.stackIds = st.stackIds ∧
    (Topo.place st name proxy).1.queues = st.queues ∧
    (Topo.place st name proxy).1.grants = st.grants ∧
    (Topo.place st name proxy).1.lambdas = st.lambdas ∧
    (Topo.place st name proxy).1.eventSources = st.eventSources ∧
    st.nextId ≤ (Topo.place st name proxy).1.nextId := by
  cases proxy with
  | false =>
    cases h : dget st.resources (name, false) with
    | some n => simp [Topo.place, h]
    | none => simp [Topo.place, h, Nat.le_add_right]
  | true =>
    cases h : dget st.resources (name, true) with
    | some n => simp [Topo.place, h]
    | none =>
      cases h2 : dget st.resources (name, false) with
      | some p => simp [Topo.place, h, h2, Nat.le_add_right]
      | none => simp [Topo.place, h, h2, Nat.le_add_right]

/-- Branch equation of `place`: a new proxy key beneath an existing
plain resource of the same name creates one fresh child node. -/
theorem place_proxy_parent {st : Topo.TopoState} {name : String} {p : Nat}
    (h : dget st.resources (name, true) = none)
    (h2 : dget st.resources (name, false) = some p) :
    Topo.place st name true =
      ({ st with nextId := st.nextId + 1,
                 resources := dinsert st.resources (name, true) st.nextId }, st.nextId) := by
  simp [Topo.place, h, h2]

/-- A key not yet registered is placed on a fresh node. -/
theorem place_fresh_node {st : Topo.TopoState} {name : String} {proxy : Bool}
    (h : dget st.resources (name, proxy) = none) :
    st.nextId ≤ (Topo.place st name proxy).2 := by
  cases proxy with
  | false => simp [Topo.place, h]
  | true =>
    cases h2 : dget st.resources (name, false) with
    | some p => simp [Topo.place, h, h2]
    | none => simp [Topo.place, h, h2, Nat.le_add_right]

/-! ## C2 — deduplicating, idempotent placement -/

/-- C2.  Placement is idempotent and deduplicating: placing the same
`(resource_name, proxy)` key twice returns the identical node and leaves
the registry untouched the second time (second conjunct of the pair
equality), and — in a registry whose nodes are numbered below the fresh
counter and bound to at most one key — a wildcard (proxy) node and a
literal node of the same name never coincide, in either order of
placement. -/
theorem path_tree_dedup :
    (∀ (st : Topo.TopoState) (name : String) (proxy : Bool),
      Topo.place (Topo.place st name proxy).1 name proxy = Topo.place st name proxy) ∧
    (∀ (st : Topo.TopoState) (name : String),
      (∀ e ∈ st.resources, e.2 < st.nextId) →
      (∀ e1 ∈ st.resources, ∀ e2 ∈ st.resources, e1.2 = e2.2 → e1.1 = e2.1) →
      (Topo.place (Topo.place st name false).1 name true).2 ≠
        (Topo.place st name false).2 ∧
      (Topo.place (Topo.place st name true).1 name false).2 ≠
        (Topo.place st name true).2) := by
  constructor
  · intro st name proxy
    rw [place_found (place_lookup st name proxy)]
  · intro st name hbound hinj
    constructor
    · -- literal first, then wildcard
      cases h : dget st.resources (name, false) with
      | some a =>
        rw [place_found h]
        cases h2 : dget st.resources (name, true) with
        | some v =>
          simp only [place_found h2]
          intro hva
          have hk := hinj _ (dget_mem h2) _ (dget_mem h) (by simpa using hva)
          simp at hk
        | none =>
          have hnode : (Topo.place st name true).2 = st.nextId := by
            simp [Topo.place, h2, h]
          rw [hnode]
          have ha : a < st.nextId := hbound _ (dget_mem h)
          omega
      | none =>
        have hne : ((name, true) : String × Bool) ≠ (name, false) := by simp
        have h1res : (Topo.place st name false).1.resources =
            dinsert st.resources (name, false) st.nextId := by
          simp [Topo.place, h]
        have h1nid : (Topo.place st name false).1.nextId = st.nextId + 1 := by
          simp [Topo.place, h]
        have h1node : (Topo.place st name false).2 = st.nextId := by
          simp [Topo.place, h]
        cases h2 : dget st.resources (name, true) with
        | some v =>
          have hl : dget (Topo.place st name false).1.resources (name, true) = some v := by
            rw [h1res, dget_dinsert_ne _ _ _ _ hne]
            exact h2
          simp only [place_found hl]
          rw [h1node]
          have : v < st.nextId := hbound _ (dget_mem h2)
          omega
        | none =>
          have hl1 : dget (Topo.place st name false).1.resources (name, true) = none := by
            rw [h1res, dget_dinsert_ne _ _ _ _ hne]
            exact h2
          have hl2 : dget (Topo.place st name false).1.resources (name, false)
              = some st.nextId := by
            rw [h1res]
            exact dget_dinsert_self _ _ _
          simp only [place_proxy_parent hl1 hl2]
          rw [h1nid, h1node]
          omega
    · -- wildcard first, then literal
      cases h : dget st.resources (name, true) with
      | some a =>
        rw [place_found h]
        cases h2 : dget st.resources (name, false) with
        | some w =>
          simp only [place_found h2]
          intro hwa
          have hk := hinj _ (dget_mem h2) _ (dget_mem h) (by simpa using hwa)
          simp at hk
        | none =>
          have hnode : (Topo.place st name false).2 = st.nextId := by
            simp [Topo.place, h2]
          rw [hnode]
          have ha : a < st.nextId := hbound _ (dget_mem h)
          omega
      | none =>
        have hne : ((name, false) : String × Bool) ≠ (name, true) := by simp
        cases h2 : dget st.resources (name, false) with
        | some parent =>
          have h1res : (Topo.place st name true).1.resources =
              dinsert st.resources (name, true) st.nextId := by
            simp [Topo.place, h, h2]
          have h1node : (Topo.place st name true).2 = st.nextId := by
            simp [Topo.place, h, h2]
          have hl : dget (Topo.place st name true).1.resources (name, false)
              = some parent := by
            rw [h1res, dget_dinsert_ne _ _ _ _ hne]
            exact h2
          simp only [place_found hl]
          rw [h1node]
          have : parent < st.nextId := hbound _ (dget_mem h2)
          omega
        | none =>
          have h1res : (Topo.place st name true).1.resources =
              dinsert (dinsert st.resources (name, false) st.nextId)
                (name, true) (st.nextId + 1) := by
            simp [Topo.place, h, h2]
          have h1node : (Topo.place st name true).2 = st.nextId + 1 := by
            simp [Topo.place, h, h2]
          have hl : dget (Topo.place st name true).1.resources (name, false)
              = some st.nextId := by
            rw [h1res, dget_dinsert_ne _ _ _ _ hne]
            exact dget_dinsert_self _ _ _
          simp only [place_found hl]
          rw [h1node]
          omega

/-- C2, witness. -/
theorem path_tree_dedup_witness :
    Topo.place (Topo.place Topo.initState "models" false).1 "models" false =
      Topo.place Topo.initState "models" false ∧
    (Topo.place (Topo.place Topo.initState "models" false).1 "models" true).2 ≠
      (Topo.place Topo.initState "models" false).2 :=
  ⟨path_tree_dedup.1 Topo.initState "models" false,
   (path_tree_dedup.2 Topo.initState "models"
      (by simp [Topo.initState]) (by simp [Topo.initState])).1⟩

/-! ## Worker factory lemmas -/

/-- Inversion of a successful `create_lambda`. -/
theorem create_lambda_ok_inv {cfg : Topo.StackCfg} {st : Topo.TopoState} {id : String}
    {tables : List (Topo.TableRef × Topo.Permission)}
    {buckets : List (Topo.BucketRef × Topo.Permission)} {q : Option Nat}
    {st' : Topo.TopoState} {fn : Nat}
    (h : Topo.create_lambda cfg st id tables buckets q = .ok (st', fn)) :
    id ∉ st.stackIds ∧ fn = st.nextId ∧
    st' = { st with
              nextId := st.nextId + 1,
              stackIds := id :: st.stackIds,
              lambdas := (st.nextId, Topo.buildEnv cfg tables q) :: st.lambdas,
              grants := Topo.lambdaGrants st.nextId tables buckets ++ st.grants } := by
  by_cases hid : id ∈ st.stackIds
  · simp [Topo.create_lambda, hid] at h
  · simp only [Topo.create_lambda, if_neg hid] at h
    injection h with h1
    have h2 := congrArg Prod.fst h1
    have h3 := congrArg Prod.snd h1
    simp only at h2 h3
    exact ⟨hid, h3.symm, h2.symm⟩

/-- Keys not touched by the table fold keep their binding. -/
theorem dget_foldl_tables_ne (ts : List (Topo.TableRef × Topo.Permission))
    (e : List (String × String)) (k : String)
    (h : ∀ tp ∈ ts, tp.1.name ≠ k) :
    dget (ts.foldl (fun e tp => dinsert e tp.1.name tp.1.arn) e) k = dget e k := by
  induction ts generalizing e with
  | nil => rfl
  | cons t rest ih =>
    simp only [List.foldl]
    rw [ih _ (fun tp htp => h tp (List.mem_cons_of_mem _ htp))]
    exact dget_dinsert_ne _ _ _ _ (Ne.symm (h t (List.mem_cons_self _ _)))

/-- With pairwise distinct table names the fold binds every table's name
to its ARN. -/
theorem dget_foldl_tables_mem {ts : List (Topo.TableRef × Topo.Permission)}
    {tp : Topo.TableRef × Topo.Permission} (htp : tp ∈ ts)
    (hnd : (ts.map (fun x => x.1.name)).Nodup) (e : List (String × String)) :
    dget (ts.foldl (fun e tp => dinsert e tp.1.name tp.1.arn) e) tp.1.name
      = some tp.1.arn := by
  induction ts generalizing e with
  | nil => simp at htp
  | cons t rest ih =>
    simp only [List.map_cons, List.nodup_cons] at hnd
    obtain ⟨hnotin, hnd'⟩ := hnd
    rcases List.mem_cons.mp htp with heq | hmem
    · subst heq
      simp only [List.foldl]
      rw [dget_foldl_tables_ne _ _ _ ?hne]
      · exact dget_dinsert_self _ _ _
      case hne =>
        intro tp' htp' heq'
        exact hnotin (heq' ▸ List.mem_map_of_mem _ htp')
    · simp only [List.foldl]
      exact ih hmem hnd' _

/-! ## C8 — worker environment -/

/-- C8, counterexample.  A worker built with an object-store grant gets
no environment entry for that store: line 99 builds the environment from
the granted tables only, buckets contribute nothing — refuting the
claim's "every store listed in requiredGrants (both data stores and
object stores)". -/
theorem worker_env_no_bucket_entry :
    ∃ (st' : Topo.TopoState) (fn : Nat),
      Topo.create_lambda (Topo.StackCfg.mk "r1" "nd") Topo.initState "f" []
        [(Topo.BucketRef.mk "models-bucket", Topo.Permission.READ)] none = .ok (st', fn) ∧
      Topo.Grant.mk fn (Topo.GrantTarget.bucket "models-bucket") Topo.GrantKind.bucketRead
        ∈ st'.grants ∧
      ∀ p ∈ st'.lambdas, dget p.2 "models-bucket" = none := by
  refine ⟨_, _, rfl, ?_, ?_⟩ <;> decide

/-- C8, amended.  The environment of every built worker contains the ARN
of every granted data store keyed by the table's name (object stores
contribute no entry), the region identifier under `region_name`, the
naming prefix under `prefix`, and the queue URL under `queue` when a
queue is bound — provided the table names are pairwise distinct and
avoid the three fixed keys. -/
theorem worker_env (cfg : Topo.StackCfg) (st : Topo.TopoState) (id : String)
    (tables : List (Topo.TableRef × Topo.Permission))
    (buckets : List (Topo.BucketRef × Topo.Permission)) (qopt : Option Nat)
    (st' : Topo.TopoState) (fn : Nat)
    (hnd : (tables.map (fun tp => tp.1.name)).Nodup)
    (hres : ∀ tp ∈ tables, tp.1.name ≠ "region_name" ∧ tp.1.name ≠ "prefix" ∧
            tp.1.name ≠ "queue")
    (h : Topo.create_lambda cfg st id tables buckets qopt = .ok (st', fn)) :
    (fn, Topo.buildEnv cfg tables qopt) ∈ st'.lambdas ∧
    (∀ tp ∈ tables, dget (Topo.buildEnv cfg tables qopt) tp.1.name = some tp.1.arn) ∧
    dget (Topo.buildEnv cfg tables qopt) "region_name" = some cfg.regionName ∧
    dget (Topo.buildEnv cfg tables qopt) "prefix" = some cfg.pfx ∧
    (∀ q, qopt = some q →
      dget (Topo.buildEnv cfg tables qopt) "queue" = some (Topo.queueUrl q)) := by
  obtain ⟨hid, hfn, hst⟩ := create_lambda_ok_inv h
  refine ⟨?_, ?_, ?_, ?_, ?_⟩
  · rw [hst, hfn]
    exact List.mem_cons_self _ _
  · intro tp htp
    obtain ⟨h1, h2, h3⟩ := hres tp htp
    cases qopt with
    | none =>
      show dget (dinsert (dinsert _ "region_name" _) "prefix" _) tp.1.name = _
      rw [dget_dinsert_ne _ _ _ _ h2, dget_dinsert_ne _ _ _ _ h1]
      exact dget_foldl_tables_mem htp hnd _
    | some q =>
      show dget (dinsert (dinsert (dinsert _ "region_name" _) "prefix" _) "queue" _)
        tp.1.name = _
      rw [dget_dinsert_ne _ _ _ _ h3, dget_dinsert_ne _ _ _ _ h2,
        dget_dinsert_ne _ _ _ _ h1]
      exact dget_foldl_tables_mem htp hnd _
  · cases qopt with
    | none =>
      show dget (dinsert (dinsert _ "region_name" _) "prefix" _) "region_name" = _
      rw [dget_dinsert_ne _ _ _ _ (by decide)]
      exact dget_dinsert_self _ _ _
    | some q =>
      show dget (dinsert (dinsert (dinsert _ "region_name" _) "prefix" _) "queue" _)
        "region_name" = _
      rw [dget_dinsert_ne _ _ _ _ (by decide), dget_dinsert_ne _ _ _ _ (by decide)]
      exact dget_dinsert_self _ _ _
  · cases qopt with
    | none =>
      show dget (dinsert (dinsert _ "region_name" _) "prefix" _) "prefix" = _
      exact dget_dinsert_self _ _ _
    | some q =>
      show dget (dinsert (dinsert (dinsert _ "region_name" _) "prefix" _) "queue" _)
        "prefix" = _
      rw [dget_dinsert_ne _ _ _ _ (by decide)]
      exact dget_dinsert_self _ _ _
  · intro q hq
    subst hq
    show dget (dinsert (dinsert (dinsert _ "region_name" _) "prefix" _) "queue" _)
      "queue" = _
    exact dget_dinsert_self _ _ _

/-- C8, witness. -/
theorem worker_env_witness :
    dget (Topo.buildEnv (Topo.StackCfg.mk "r1" "nd")
        [(Topo.TableRef.mk "nd_Users" "arn:users", Topo.Permission.READ)] none) "nd_Users"
      = some "arn:users" ∧
    dget (Topo.buildEnv (Topo.StackCfg.mk "r1" "nd")
        [(Topo.TableRef.mk "nd_Users" "arn:users", Topo.Permission.READ)] none) "region_name"
      = some "r1" ∧
    dget (Topo.buildEnv (Topo.StackCfg.mk "r1" "nd")
        [(Topo.TableRef.mk "nd_Users" "arn:users", Topo.Permission.READ)] none) "prefix"
      = some "nd" := by
  have h := worker_env (Topo.StackCfg.mk "r1" "nd") Topo.initState "f"
      [(Topo.TableRef.mk "nd_Users" "arn:users", Topo.Permission.READ)] [] none
      _ _ (by decide) (by decide) rfl
  exact ⟨h.2.1 (Topo.TableRef.mk "nd_Users" "arn:users", Topo.Permission.READ)
      (List.mem_cons_self _ _), h.2.2.1, h.2.2.2.1⟩

/-! ## Route-registration lemmas -/


/-- Wiring no secrets leaves the lambda environments unchanged. -/
theorem addSecretEnv_nil (ls : List (Nat × List (String × String))) (fn : Nat) :
    Topo.addSecretEnv ls fn [] = ls := by
  unfold Topo.addSecretEnv
  induction ls with
  | nil => rfl
  | cons p rest ih =>
    cases p with
    | mk a b =>
      simp only [List.map_cons] at *
      rw [ih]
      by_cases h : a = fn <;> simp [h]

/-- Appending to the same string on the left is injective. -/
theorem string_append_cancel_left {s a b : String} (h : s ++ a = s ++ b) : a = b := by
  have hd := congrArg String.data h
  simp only [String.data_append] at hd
  exact String.ext (List.append_cancel_left hd)

/-- Inversion of a successful `addRouteRest`. -/
theorem addRouteRest_ok_inv {cfg : Topo.StackCfg} {st2 : Topo.TopoState} {node : Nat}
    {m lid : String} {tables : List (Topo.TableRef × Topo.Permission)}
    {buckets : List (Topo.BucketRef × Topo.Permission)}
    {secrets : List (String × String)} {qopt : Option Nat}
    {st' : Topo.TopoState} {r : Topo.AddResult}
    (h : Topo.addRouteRest cfg st2 node m lid tables buckets secrets qopt = .ok (st', r)) :
    lid ∉ st2.stackIds ∧
    (node, m) ∉ st2.methods ∧
    r = Topo.AddResult.mk node st2.nextId qopt ∧
    st'.resources = st2.resources ∧
    st'.methods = (node, m) :: st2.methods ∧
    st'.queues = st2.queues ∧
    st'.eventSources = st2.eventSources ∧
    st'.stackIds = lid :: st2.stackIds ∧
    st'.grants = Topo.secretGrants st2.nextId secrets ++
      ((match qopt with
        | some q => [Topo.Grant.mk st2.nextId (Topo.GrantTarget.queue q)
            Topo.GrantKind.queueSend]
        | none => []) ++
       (Topo.lambdaGrants st2.nextId tables buckets ++ st2.grants)) ∧
    st'.lambdas = Topo.addSecretEnv
      ((st2.nextId, Topo.buildEnv cfg tables qopt) :: st2.lambdas) st2.nextId secrets := by
  unfold Topo.addRouteRest at h
  cases hcl : Topo.create_lambda cfg st2 lid tables buckets qopt with
  | error e => simp [hcl] at h
  | ok p =>
    obtain ⟨st3, fn⟩ := p
    obtain ⟨hlid, hfn, hst3⟩ := create_lambda_ok_inv hcl
    subst hfn
    subst hst3
    simp only [hcl] at h
    cases qopt with
    | none =>
      simp only at h
      by_cases hm : (node, m) ∈ st2.methods
      · rw [if_pos hm] at h
        cases h
      · rw [if_neg hm] at h
        injection h with h1
        have h2 := congrArg Prod.fst h1
        have h3 := congrArg Prod.snd h1
        simp only at h2 h3
        subst h2
        subst h3
        refine ⟨hlid, hm, rfl, ?_, ?_, ?_, ?_, ?_, ?_, ?_⟩ <;> simp
    | some q =>
      simp only at h
      by_cases hm : (node, m) ∈ st2.methods
      · rw [if_pos hm] at h
        cases h
      · rw [if_neg hm] at h
        injection h with h1
        have h2 := congrArg Prod.fst h1
        have h3 := congrArg Prod.snd h1
        simp only at h2 h3
        subst h2
        subst h3
        refine ⟨hlid, hm, rfl, ?_, ?_, ?_, ?_, ?_, ?_, ?_⟩ <;> simp

/-- An already-bound method makes `addRouteRest` fail whatever the other
arguments are. -/
theorem addRouteRest_dup_method {cfg : Topo.StackCfg} {st2 : Topo.TopoState} {node : Nat}
    {m lid : String} {tables : List (Topo.TableRef × Topo.Permission)}
    {buckets : List (Topo.BucketRef × Topo.Permission)}
    {secrets : List (String × String)} {qopt : Option Nat}
    (hm : (node, m) ∈ st2.methods) :
    (Topo.addRouteRest cfg st2 node m lid tables buckets secrets qopt).toOption = none := by
  unfold Topo.addRouteRest
  cases hcl : Topo.create_lambda cfg st2 lid tables buckets qopt with
  | error e => simp [hcl, Except.toOption]
  | ok p =>
    obtain ⟨st3, fn⟩ := p
    obtain ⟨_, hfn, hst3⟩ := create_lambda_ok_inv hcl
    subst hfn
    subst hst3
    cases qopt <;> simp [hcl, hm, Except.toOption]

/-- A fresh lambda id and an unbound method make `addRouteRest`
succeed. -/
theorem addRouteRest_ok_exists (cfg : Topo.StackCfg) {st2 : Topo.TopoState} {node : Nat}
    {m lid : String} (tables : List (Topo.TableRef × Topo.Permission))
    (buckets : List (Topo.BucketRef × Topo.Permission))
    (secrets : List (String × String)) (qopt : Option Nat)
    (hlid : lid ∉ st2.stackIds) (hm : (node, m) ∉ st2.methods) :
    ∃ st' r, Topo.addRouteRest cfg st2 node m lid tables buckets secrets qopt
      = .ok (st', r) := by
  unfold Topo.addRouteRest
  have hcl : Topo.create_lambda cfg st2 lid tables buckets qopt =
      .ok ({ st2 with
               nextId := st2.nextId + 1,
               stackIds := lid :: st2.stackIds,
               lambdas := (st2.nextId, Topo.buildEnv cfg tables qopt) :: st2.lambdas,
               grants := Topo.lambdaGrants st2.nextId tables buckets ++ st2.grants },
            st2.nextId) := by
    unfold Topo.create_lambda
    rw [if_neg hlid]
  rw [hcl]
  cases qopt with
  | none =>
    simp only
    rw [if_neg hm]
    exact ⟨_, _, rfl⟩
  | some q =>
    simp only
    rw [if_neg hm]
    exact ⟨_, _, rfl⟩

/-- A route whose `(path, method)` pair is already bound fails however
the other arguments are chosen. -/
theorem addRoute_dup_method {cfg : Topo.StackCfg} {st : Topo.TopoState}
    {m name : String} {proxy : Bool} {ov : Option String}
    {tables : List (Topo.TableRef × Topo.Permission)}
    {buckets : List (Topo.BucketRef × Topo.Permission)}
    {secrets : List (String × String)} {cq : Bool} {node : Nat}
    (hres : dget st.resources (name, proxy) = some node)
    (hmem : (node, m) ∈ st.methods) :
    (Topo.addRoute cfg st m name proxy ov tables buckets secrets cq).toOption = none := by
  have hp := place_found hres
  cases cq with
  | false =>
    simp only [Topo.addRoute, hp]
    exact addRouteRest_dup_method hmem
  | true =>
    simp only [Topo.addRoute, hp]
    by_cases hq : name ∈ st.stackIds
    · rw [if_pos hq]
      rfl
    · rw [if_neg hq]
      exact addRouteRest_dup_method hmem

/-- A successful `addRoute` leaves the registry binding the key to the
returned node and the method recorded on it. -/
theorem addRoute_ok_node_method {cfg : Topo.StackCfg} {st0 : Topo.TopoState}
    {m name : String} {proxy : Bool} {ov : Option String}
    {tables : List (Topo.TableRef × Topo.Permission)}
    {buckets : List (Topo.BucketRef × Topo.Permission)}
    {secrets : List (String × String)} {cq : Bool}
    {st' : Topo.TopoState} {r : Topo.AddResult}
    (h : Topo.addRoute cfg st0 m name proxy ov tables buckets secrets cq = .ok (st', r)) :
    dget st'.resources (name, proxy) = some r.node ∧ (r.node, m) ∈ st'.methods := by
  cases cq with
  | false =>
    simp only [Topo.addRoute] at h
    obtain ⟨_, _, hr, hres, hmeth, _⟩ := addRouteRest_ok_inv h
    subst hr
    constructor
    · rw [hres]
      exact place_lookup st0 name proxy
    · rw [hmeth]
      exact List.mem_cons_self _ _
  | true =>
    simp only [Topo.addRoute] at h
    by_cases hq : name ∈ (Topo.place st0 name proxy).1.stackIds
    · rw [if_pos hq] at h
      cases h
    · rw [if_neg hq] at h
      obtain ⟨_, _, hr, hres, hmeth, _⟩ := addRouteRest_ok_inv h
      subst hr
      constructor
      · rw [hres]
        exact place_lookup st0 name proxy
      · rw [hmeth]
        exact List.mem_cons_self _ _

/-! ## C1 — path+method uniqueness -/

/-- C1.  Registering a route with the same `(path, method)` pair as an
already-registered one fails (the result carries a
`ConfigurationError`, whatever the other arguments of the second
registration are), while registering the same fresh path under two
different methods succeeds for both and attaches both routes to the
same path node. -/
theorem route_registration_unique :
    (∀ (cfg : Topo.StackCfg) (st0 : Topo.TopoState) (m name : String) (proxy : Bool)
        (ov : Option String) (tables : List (Topo.TableRef × Topo.Permission))
        (buckets : List (Topo.BucketRef × Topo.Permission))
        (secrets : List (String × String)) (cq : Bool)
        (st' : Topo.TopoState) (r : Topo.AddResult) (ov2 : Option String)
        (tables2 : List (Topo.TableRef × Topo.Permission))
        (buckets2 : List (Topo.BucketRef × Topo.Permission))
        (secrets2 : List (String × String)) (cq2 : Bool),
      Topo.addRoute cfg st0 m name proxy ov tables buckets secrets cq = .ok (st', r) →
      (Topo.addRoute cfg st' m name proxy ov2 tables2 buckets2 secrets2 cq2).toOption
        = none) ∧
    (∀ (cfg : Topo.StackCfg) (st0 : Topo.TopoState) (name : String) (proxy : Bool)
        (m1 m2 : String) (tables : List (Topo.TableRef × Topo.Permission))
        (buckets : List (Topo.BucketRef × Topo.Permission)),
      dget st0.resources (name, proxy) = none →
      (∀ pm ∈ st0.methods, pm.1 < st0.nextId) →
      (name ++ "_" ++ m1) ∉ st0.stackIds →
      (name ++ "_" ++ m2) ∉ st0.stackIds →
      m1 ≠ m2 →
      ∃ st1 r1 st2 r2,
        Topo.addRoute cfg st0 m1 name proxy none tables buckets [] false = .ok (st1, r1) ∧
        Topo.addRoute cfg st1 m2 name proxy none tables buckets [] false = .ok (st2, r2) ∧
        r2.node = r1.node) := by
  constructor
  · intro cfg st0 m name proxy ov tables buckets secrets cq st' r ov2 tables2 buckets2
      secrets2 cq2 h
    obtain ⟨hres, hmeth⟩ := addRoute_ok_node_method h
    exact addRoute_dup_method hres hmeth
  · intro cfg st0 name proxy m1 m2 tables buckets hres hbound hl1 hl2 hne
    have hfresh := place_fresh_node hres
    have hst := place_state st0 name proxy
    have hm1 : ((Topo.place st0 name proxy).2, m1) ∉ (Topo.place st0 name proxy).1.methods := by
      rw [hst.1]
      intro hmem
      have h1 := hbound _ hmem
      simp only at h1
      omega
    have hlid1 : (name ++ "_" ++ m1) ∉ (Topo.place st0 name proxy).1.stackIds := by
      rw [hst.2.1]
      exact hl1
    obtain ⟨st1', r1', h1⟩ := addRouteRest_ok_exists cfg tables buckets [] none hlid1 hm1
    have e1 : Topo.addRoute cfg st0 m1 name proxy none tables buckets [] false
        = Topo.addRouteRest cfg (Topo.place st0 name proxy).1 (Topo.place st0 name proxy).2
            m1 (name ++ "_" ++ m1) tables buckets [] none := rfl
    obtain ⟨hlidA, hmA, hr1, hres1, hmeth1, hq1, hev1, hsid1, hgr1, hlam1⟩ :=
      addRouteRest_ok_inv h1
    have hlook : dget st1'.resources (name, proxy) = some (Topo.place st0 name proxy).2 := by
      rw [hres1]
      exact place_lookup st0 name proxy
    have hpf : Topo.place st1' name proxy = (st1', (Topo.place st0 name proxy).2) :=
      place_found hlook
    have hlid2 : (name ++ "_" ++ m2) ∉ st1'.stackIds := by
      rw [hsid1, hst.2.1]
      intro hmem
      rcases List.mem_cons.mp hmem with heq | hmem2
      · exact hne (string_append_cancel_left heq).symm
      · exact hl2 hmem2
    have hm2 : ((Topo.place st0 name proxy).2, m2) ∉ st1'.methods := by
      rw [hmeth1, hst.1]
      intro hmem
      rcases List.mem_cons.mp hmem with heq | hmem2
      · have hms : m2 = m1 := congrArg Prod.snd heq
        exact hne hms.symm
      · have h1b := hbound _ hmem2
        simp only at h1b
        omega
    obtain ⟨st2', r2', h2⟩ := addRouteRest_ok_exists cfg tables buckets [] none hlid2 hm2
    have e2 : Topo.addRoute cfg st1' m2 name proxy none tables buckets [] false
        = Topo.addRouteRest cfg st1' (Topo.place st0 name proxy).2 m2 (name ++ "_" ++ m2)
            tables buckets [] none := by
      simp only [Topo.addRoute, hpf]
      rfl
    obtain ⟨_, _, hr2, _⟩ := addRouteRest_ok_inv h2
    refine ⟨st1', r1', st2', r2', ?_, ?_, ?_⟩
    · rw [e1]
      exact h1
    · rw [e2]
      exact h2
    · rw [hr1, hr2]

/-- C1, witness. -/
theorem route_registration_unique_witness :
    (∃ st1 r1 st2 r2,
      Topo.addRoute (Topo.StackCfg.mk "r1" "nd") Topo.initState "GET" "models" false none
        [] [] [] false = .ok (st1, r1) ∧
      Topo.addRoute (Topo.StackCfg.mk "r1" "nd") st1 "PUT" "models" false none
        [] [] [] false = .ok (st2, r2) ∧
      r2.node = r1.node) ∧
    (∀ st1 r1, Topo.addRoute (Topo.StackCfg.mk "r1" "nd") Topo.initState "GET" "models"
        false none [] [] [] false = .ok (st1, r1) →
      (Topo.addRoute (Topo.StackCfg.mk "r1" "nd") st1 "GET" "models" false none [] [] []
        false).toOption = none) := by
  constructor
  · exact route_registration_unique.2 (Topo.StackCfg.mk "r1" "nd") Topo.initState "models"
      false "GET" "PUT" [] [] rfl (by simp [Topo.initState]) (by simp [Topo.initState])
      (by simp [Topo.initState]) (by decide)
  · intro st1 r1 h
    exact route_registration_unique.1 _ _ _ _ _ _ _ _ _ _ _ _ none [] [] [] false h

/-! ## Queue-binding lemmas -/

/-- Grants whose targets avoid the queue are filtered away. -/
theorem filter_grants_queue_nil {gs : List Topo.Grant} {q : Nat}
    (h : ∀ g ∈ gs, g.target ≠ Topo.GrantTarget.queue q) :
    gs.filter (fun g => decide (g.target = Topo.GrantTarget.queue q)) = [] := by
  induction gs with
  | nil => rfl
  | cons g rest ih =>
    rw [List.filter_cons]
    rw [if_neg (by simpa using h g (List.mem_cons_self _ _))]
    exact ih fun g' hg' => h g' (List.mem_cons_of_mem _ hg')

/-- Secret grants never target a queue. -/
theorem secretGrants_filter_queue (fn : Nat) (secrets : List (String × String)) (q : Nat) :
    (Topo.secretGrants fn secrets).filter
      (fun g => decide (g.target = Topo.GrantTarget.queue q)) = [] := by
  refine filter_grants_queue_nil ?_
  intro g hg
  simp only [Topo.secretGrants, List.mem_map] at hg
  obtain ⟨pr, _, hpr⟩ := hg
  rw [← hpr]
  simp

/-- Table and bucket grants never target a queue. -/
theorem lambdaGrants_filter_queue (fn : Nat) (tables : List (Topo.TableRef × Topo.Permission))
    (buckets : List (Topo.BucketRef × Topo.Permission)) (q : Nat) :
    (Topo.lambdaGrants fn tables buckets).filter
      (fun g => decide (g.target = Topo.GrantTarget.queue q)) = [] := by
  refine filter_grants_queue_nil ?_
  intro g hg
  simp only [Topo.lambdaGrants, List.mem_append] at hg
  rcases hg with hg | hg
  · induction tables with
    | nil => simp at hg
    | cons t rest ih =>
      simp only [List.foldr, List.mem_append] at hg
      rcases hg with hg | hg
      · simp only [List.mem_map] at hg
        obtain ⟨k, _, hk⟩ := hg
        rw [← hk]
        simp
      · exact ih hg
  · induction buckets with
    | nil => simp at hg
    | cons b rest ih =>
      simp only [List.foldr, List.mem_append] at hg
      rcases hg with hg | hg
      · simp only [List.mem_map] at hg
        obtain ⟨k, _, hk⟩ := hg
        rw [← hk]
        simp
      · exact ih hg

/-! ## C9 — queue binding -/

/-- C9.  A route registered with `create_queue=True` gets a freshly
created queue — never one reused from the prior state — that is FIFO
with per-message-group deduplication scope and no content-based
deduplication; right after the registration the only grant on that
queue is send-only, held by the route's own worker.  Attaching a
consumer (the `create_new_user_lambda` wiring) grants it both send and
consume rights on the queue and registers it as an event-source trigger
with the declared batch size. -/
theorem queue_binding :
    (∀ (cfg : Topo.StackCfg) (st0 : Topo.TopoState) (m name : String) (proxy : Bool)
        (ov : Option String) (tables : List (Topo.TableRef × Topo.Permission))
        (buckets : List (Topo.BucketRef × Topo.Permission))
        (secrets : List (String × String))
        (st' : Topo.TopoState) (r : Topo.AddResult),
      (∀ e ∈ st0.queues, e.1 < st0.nextId) →
      (∀ g ∈ st0.grants, ∀ qid, g.target = Topo.GrantTarget.queue qid → qid < st0.nextId) →
      Topo.addRoute cfg st0 m name proxy ov tables buckets secrets true = .ok (st', r) →
      ∃ q, r.queue = some q ∧
        (∀ e ∈ st0.queues, e.1 ≠ q) ∧
        (q, Topo.fifoQueueProps) ∈ st'.queues ∧
        Topo.fifoQueueProps.fifo = true ∧
        Topo.fifoQueueProps.dedupScopePerMessageGroup = true ∧
        Topo.fifoQueueProps.contentBasedDeduplication = false ∧
        Topo.grantsOn st' q =
          [Topo.Grant.mk r.fn (Topo.GrantTarget.queue q) Topo.GrantKind.queueSend]) ∧
    (∀ (st : Topo.TopoState) (id : String) (q bs : Nat)
        (env : List (String × String)) (st' : Topo.TopoState) (fn : Nat),
      Topo.attachConsumer st id q bs env = .ok (st', fn) →
      Topo.Grant.mk fn (Topo.GrantTarget.queue q) Topo.GrantKind.queueConsume ∈ st'.grants ∧
      Topo.Grant.mk fn (Topo.GrantTarget.queue q) Topo.GrantKind.queueSend ∈ st'.grants ∧
      (fn, q, bs) ∈ st'.eventSources) := by
  constructor
  · intro cfg st0 m name proxy ov tables buckets secrets st' r hqb hgb h
    simp only [Topo.addRoute] at h
    by_cases hq : name ∈ (Topo.place st0 name proxy).1.stackIds
    · rw [if_pos hq] at h
      cases h
    · rw [if_neg hq] at h
      obtain ⟨hlid, hm, hr, hres, hmeth, hqu, hev, hsid, hgr, hlam⟩ := addRouteRest_ok_inv h
      subst hr
      have hle := (place_state st0 name proxy).2.2.2.2.2.2
      refine ⟨(Topo.place st0 name proxy).1.nextId, rfl, ?_, ?_, rfl, rfl, rfl, ?_⟩
      · intro e he
        have := hqb e he
        omega
      · rw [hqu]
        exact List.mem_cons_self _ _
      · unfold Topo.grantsOn
        rw [hgr]
        have hd : (Topo.place st0 name proxy).1.grants.filter
            (fun g => decide (g.target =
              Topo.GrantTarget.queue ((Topo.place st0 name proxy).1.nextId))) = [] := by
          refine filter_grants_queue_nil ?_
          intro g hg heq
          rw [(place_state st0 name proxy).2.2.2.1] at hg
          have := hgb g hg _ heq
          omega
        simp [List.filter_append, secretGrants_filter_queue, lambdaGrants_filter_queue, hd]
  · intro st id q bs env st' fn h
    unfold Topo.attachConsumer at h
    by_cases hid : id ∈ st.stackIds
    · rw [if_pos hid] at h
      cases h
    · rw [if_neg hid] at h
      injection h with h1
      have h2 := congrArg Prod.fst h1
      have h3 := congrArg Prod.snd h1
      simp only at h2 h3
      subst h2
      subst h3
      refine ⟨?_, ?_, ?_⟩ <;> simp

/-- C9, witness. -/
theorem queue_binding_witness :
    ∃ st' r q,
      Topo.addRoute (Topo.StackCfg.mk "r1" "nd") Topo.initState "POST" "sign-up" false
        (some "signup_POST") [] [] [] true = .ok (st', r) ∧
      r.queue = some q ∧
      (q, Topo.fifoQueueProps) ∈ st'.queues ∧
      Topo.grantsOn st' q =
        [Topo.Grant.mk r.fn (Topo.GrantTarget.queue q) Topo.GrantKind.queueSend] ∧
      ∃ st2 fn,
        Topo.attachConsumer st' "new_user" q 1 [] = .ok (st2, fn) ∧
        Topo.Grant.mk fn (Topo.GrantTarget.queue q) Topo.GrantKind.queueConsume
          ∈ st2.grants ∧
        Topo.Grant.mk fn (Topo.GrantTarget.queue q) Topo.GrantKind.queueSend
          ∈ st2.grants ∧
        (fn, q, 1) ∈ st2.eventSources := by
  have h : Topo.addRoute (Topo.StackCfg.mk "r1" "nd") Topo.initState "POST" "sign-up" false
      (some "signup_POST") [] [] [] true =
      .ok ({ nextId := 3,
             resources := [(("sign-up", false), 0)],
             methods := [(0, "POST")],
             stackIds := ["signup_POST", "sign-up"],
             lambdas := [(2, [("region_name", "r1"), ("prefix", "nd"),
               ("queue", "https://sqs/1")])],
             queues := [(1, Topo.fifoQueueProps)],
             grants := [Topo.Grant.mk 2 (Topo.GrantTarget.queue 1) Topo.GrantKind.queueSend],
             eventSources := [] },
           Topo.AddResult.mk 0 2 (some 1)) := by
    rfl
  obtain ⟨q, hq, hfr, hmem, _, _, _, hgr⟩ := queue_binding.1 (Topo.StackCfg.mk "r1" "nd")
    Topo.initState "POST" "sign-up" false (some "signup_POST") [] [] [] _ _
    (by simp [Topo.initState]) (by simp [Topo.initState]) h
  have h2 : Topo.attachConsumer
      ({ nextId := 3,
         resources := [(("sign-up", false), 0)],
         methods := [(0, "POST")],
         stackIds := ["signup_POST", "sign-up"],
         lambdas := [(2, [("region_name", "r1"), ("prefix", "nd"),
           ("queue", "https://sqs/1")])],
         queues := [(1, Topo.fifoQueueProps)],
         grants := [Topo.Grant.mk 2 (Topo.GrantTarget.queue 1) Topo.GrantKind.queueSend],
         eventSources := [] } : Topo.TopoState) "new_user" q 1 [] =
      .ok ({ nextId := 4,
             resources := [(("sign-up", false), 0)],
             methods := [(0, "POST")],
             stackIds := ["new_user", "signup_POST", "sign-up"],
             lambdas := [(3, []), (2, [("region_name", "r1"), ("prefix", "nd"),
               ("queue", "https://sqs/1")])],
             queues := [(1, Topo.fifoQueueProps)],
             grants := [Topo.Grant.mk 3 (Topo.GrantTarget.queue q) Topo.GrantKind.queueConsume,
               Topo.Grant.mk 3 (Topo.GrantTarget.queue q) Topo.GrantKind.queueSend,
               Topo.Grant.mk 2 (Topo.GrantTarget.queue 1) Topo.GrantKind.queueSend],
             eventSources := [(3, q, 1)] },
           3) := by
    unfold Topo.attachConsumer
    rw [if_neg (by decide)]
  obtain ⟨hc, hs, he⟩ := queue_binding.2 _ "new_user" q 1 [] _ _ h2
  exact ⟨_, _, q, h, hq, hmem, hgr, _, _, h2, hc, hs, he⟩
